import Mathlib

/-!
Verification of the sidecar Tauri backend (`src/sidecar/src-tauri/src/lib.rs`).

The development shallowly embeds the Rust source.  External library calls
(SHA-256, AES-256-GCM, base64, UTF-8 validation, the OS keyring and the
SQLite driver) are modelled as parameters: the structure `Ext` bundles the
external functions together with the properties their libraries document
(authenticated-cipher round-trip and tag length, base64 and UTF-8
encode/decode round-trips, 32-byte SHA-256 digests).  Everything that is
code of `lib.rs` itself is translated definition by definition.
-/

set_option autoImplicit false

namespace Sidecar

/-- Error taxonomy of the backend, mirroring `enum SidecarError` in
`lib.rs`; each constructor carries the human-readable message. -/
inductive SidecarError where
  | Database (msg : String)
  | Encryption (msg : String)
  | Keyring (msg : String)
  | InvalidState (msg : String)
  | NotFound (msg : String)
  | Serialization (msg : String)
  deriving DecidableEq, Repr

/-- Handle to an open SQLite connection (`rusqlite::Connection`).  The
connection's behaviour is supplied by oracles at each call site, so the
handle itself is just an identifier. -/
structure DbConn where
  id : Nat
  deriving DecidableEq, Repr

/-- Shared process state, mirroring `struct AppState`: the optional
database connection, the optional 32-byte derived encryption key (bytes as
naturals below 256) and the OAuth CSRF state map.  The `HashMap<String,
String>` is modelled as an association list with unique keys. -/
structure AppState where
  db : Option DbConn
  encryption_key : Option (List Nat)
  oauth_states : List (String × String)
  deriving DecidableEq, Repr

/-- Fresh process state as built by `AppState::new()`. -/
def AppState.new : AppState :=
  { db := none, encryption_key := none, oauth_states := [] }

/-! ### Association-list maps

`HashMap::get/insert/remove` (used for the CSRF map) and the OS keyring's
per-provider store are modelled by association lists with
first-match lookup, overwrite-on-insert and erase. -/

/-- Lookup of the first entry with the given key. -/
def alGet {α : Type} : List (String × α) → String → Option α
  | [], _ => none
  | (k, v) :: rest, n => if k = n then some v else alGet rest n

/-- Insert with overwrite: replaces an existing entry for the key,
otherwise appends a new entry. -/
def alInsert {α : Type} : List (String × α) → String → α → List (String × α)
  | [], k, v => [(k, v)]
  | (k', v') :: rest, k, v =>
    if k' = k then (k, v) :: rest else (k', v') :: alInsert rest k v

/-- Remove every entry with the given key. -/
def alErase {α : Type} : List (String × α) → String → List (String × α)
  | [], _ => []
  | (k', v') :: rest, k =>
    if k' = k then alErase rest k else (k', v') :: alErase rest k

/-! ### JSON value model (`serde_json::Value`) -/

/-- Bit pattern of an IEEE-754 double (`f64`).  The model never performs
floating-point arithmetic; it only carries the 64-bit pattern around and
inspects the exponent field for finiteness. -/
structure F64 where
  bits : Nat
  deriving DecidableEq, Repr

/-- Finiteness test on an `f64` bit pattern: a double is non-finite
exactly when its 11 exponent bits are all ones. -/
def F64.isFinite (f : F64) : Bool :=
  decide (f.bits / 2 ^ 52 % 2 ^ 11 ≠ 2 ^ 11 - 1)

/-- Model of `serde_json::Number`: an unsigned 64-bit integer, a negative
signed 64-bit integer, or a double. -/
inductive JNumber where
  | posInt (n : Nat)
  | negInt (i : Int)
  | float (f : F64)
  deriving DecidableEq, Repr

/-- Model of `serde_json::Value`. -/
inductive Json where
  | null
  | bool (b : Bool)
  | num (n : JNumber)
  | str (s : String)
  | arr (xs : List Json)
  | obj (fields : List (String × Json))

/-- Native SQL statement parameter, the result type of `json_to_sql`
(a boxed `rusqlite::ToSql` value). -/
inductive SqlParam where
  | null
  | bool (b : Bool)
  | int (i : Int)
  | real (f : F64)
  | text (s : String)
  deriving DecidableEq, Repr

/-- Largest `i64` value, used by `serde_json::Number::as_i64`. -/
def i64Max : Nat := 2 ^ 63 - 1

/-- Model of `Number::as_i64`: defined for a non-negative integer that
fits `i64` and for every negative integer; `None` on doubles. -/
def JNumber.asI64 : JNumber → Option Int
  | .posInt n => if n ≤ i64Max then some (Int.ofNat n) else none
  | .negInt i => some i
  | .float _ => none

/-! ### External functions (`Ext`) -/

/-- External library functions used by `lib.rs`, with the behavioural
guarantees their crates document.  Bytes are naturals; keys, nonces,
plaintexts and ciphertexts are byte lists.

* `sha256` — `sha2::Sha256`, always a 32-byte digest;
* `aeadEnc`/`aeadDec` — `Aes256Gcm::encrypt/decrypt`; decrypting a
  produced ciphertext with the same key and nonce recovers the plaintext,
  and the ciphertext is plaintext length plus the 16-byte tag;
* `b64encode`/`b64decode` — `base64` standard engine, decode inverts
  encode;
* `utf8encode`/`utf8decode` — `String::as_bytes` and `String::from_utf8`,
  decode inverts encode;
* `i64ToF64`/`u64ToF64` — the `as f64` casts inside `Number::as_f64`;
* `f64ToString` — the decimal rendering of a double used by
  `Display for serde_json::Value`. -/
structure Ext where
  sha256 : List Nat → List Nat
  aeadEnc : List Nat → List Nat → List Nat → Option (List Nat)
  aeadDec : List Nat → List Nat → List Nat → Option (List Nat)
  b64encode : List Nat → String
  b64decode : String → Option (List Nat)
  utf8encode : String → List Nat
  utf8decode : List Nat → Option String
  i64ToF64 : Int → F64
  u64ToF64 : Nat → F64
  f64ToString : F64 → String
  sha256_len : ∀ bs, (sha256 bs).length = 32
  aead_enc_dec : ∀ k n pt ct, aeadEnc k n pt = some ct → aeadDec k n ct = some pt
  aead_enc_len : ∀ k n pt ct, aeadEnc k n pt = some ct → ct.length = pt.length + 16
  b64_roundtrip : ∀ bs, b64decode (b64encode bs) = some bs
  utf8_roundtrip : ∀ s, utf8decode (utf8encode s) = some s

/-- Model of `Number::as_f64`: every number converts (integers through
the `as f64` casts, doubles as themselves); `None` never occurs without
the arbitrary-precision feature. -/
def JNumber.asF64 (E : Ext) : JNumber → Option F64
  | .posInt n => some (E.u64ToF64 n)
  | .negInt i => some (E.i64ToF64 i)
  | .float f => some f

/-- Decimal rendering of a `serde_json::Number` (its `Display`). -/
def JNumber.render (E : Ext) : JNumber → String
  | .posInt n => toString n
  | .negInt i => toString i
  | .float f => E.f64ToString f

/-! ### JSON serialization (`Display for serde_json::Value`) -/

/-- Lower-case hexadecimal digit. -/
def hexDigit (n : Nat) : Char :=
  if n < 10 then Char.ofNat (48 + n) else Char.ofNat (87 + n)

/-- Escape of one character inside a JSON string, as produced by
`serde_json`'s compact formatter: quote and backslash are escaped, the
control characters `\b \t \n \f \r` get short escapes, other control
characters get a `\u00XX` escape, and everything else is itself. -/
def escapeChar (c : Char) : String :=
  if c = '\x22' then "\\\x22"
  else if c = '\\' then "\\\\"
  else if c.toNat = 8 then "\\b"
  else if c.toNat = 9 then "\\t"
  else if c.toNat = 10 then "\\n"
  else if c.toNat = 12 then "\\f"
  else if c.toNat = 13 then "\\r"
  else if c.toNat < 32 then
    String.mk ['\\', 'u', '0', '0', hexDigit (c.toNat / 16), hexDigit (c.toNat % 16)]
  else String.singleton c

/-- Escaped body of a JSON string literal. -/
def escapeJson (s : String) : String :=
  String.join (s.data.map escapeChar)

/-- JSON string literal: escaped body between double quotes. -/
def quoteJson (s : String) : String :=
  "\x22" ++ escapeJson s ++ "\x22"

mutual

/-- Compact JSON serialization of a value, as produced by
`value.to_string()` (`Display for serde_json::Value`). -/
def jsonToString (E : Ext) : Json → String
  | .null => "null"
  | .bool b => if b then "true" else "false"
  | .num n => n.render E
  | .str s => quoteJson s
  | .arr xs => "[" ++ jsonListStr E xs ++ "]"
  | .obj fs => "\x7b" ++ jsonObjStr E fs ++ "\x7d"

/-- Comma-separated serialization of array elements. -/
def jsonListStr (E : Ext) : List Json → String
  | [] => ""
  | [x] => jsonToString E x
  | x :: y :: xs => jsonToString E x ++ "," ++ jsonListStr E (y :: xs)

/-- Comma-separated serialization of object members. -/
def jsonObjStr (E : Ext) : List (String × Json) → String
  | [] => ""
  | [(k, v)] => quoteJson k ++ ":" ++ jsonToString E v
  | (k, v) :: p :: fs =>
    quoteJson k ++ ":" ++ jsonToString E v ++ "," ++ jsonObjStr E (p :: fs)

end

/-! ### Value Codec (`json_to_sql`, `row_value_to_json`) -/

/-- Translation of `fn json_to_sql` from `lib.rs`: null, booleans and
strings map to their native forms; a number is bound as an `i64` when
`as_i64` succeeds, else as an `f64` when `as_f64` succeeds, else as its
decimal text; every other value (array, object) is bound as its
JSON-serialized text. -/
def json_to_sql (E : Ext) (value : Json) : SqlParam :=
  match value with
  | .null => .null
  | .bool b => .bool b
  | .num n =>
    match n.asI64 with
    | some i => .int i
    | none =>
      match n.asF64 E with
      | some f => .real f
      | none => .text (n.render E)
  | .str s => .text s
  | .arr xs => .text (jsonToString E (.arr xs))
  | .obj fs => .text (jsonToString E (.obj fs))

/-- Outcome of the five typed extractions `row.get::<T>(idx)` that
`row_value_to_json` attempts on one raw column value: each field is
`some` exactly when the corresponding `rusqlite` extraction would
succeed, holding the extracted value. -/
structure RawColumn where
  asText : Option String
  asI64 : Option Int
  asF64 : Option F64
  asBool : Option Bool
  asBlob : Option (List Nat)
  deriving DecidableEq, Repr

/-- JSON number built from an `i64` (`serde_json::Value::Number(i.into())`):
non-negative values are held unsigned, negative values signed. -/
def jnumOfInt (i : Int) : JNumber :=
  if i < 0 then .negInt i else .posInt i.toNat

/-- JSON value built from an `f64` by `serde_json::json!(f)`:
`Number::from_f64` rejects non-finite doubles, which therefore become
JSON null. -/
def jsonOfF64 (f : F64) : Json :=
  if f.isFinite then .num (.float f) else .null

/-- Translation of `fn row_value_to_json` from `lib.rs`: try the typed
extractions in the fixed order text, `i64`, `f64`, `bool`, blob
(base64-encoded), taking the first that succeeds, and fall back to JSON
null when all five fail. -/
def row_value_to_json (E : Ext) (c : RawColumn) : Json :=
  match c.asText with
  | some s => .str s
  | none =>
    match c.asI64 with
    | some i => .num (jnumOfInt i)
    | none =>
      match c.asF64 with
      | some f => jsonOfF64 f
      | none =>
        match c.asBool with
        | some b => .bool b
        | none =>
          match c.asBlob with
          | some bytes => .str (E.b64encode bytes)
          | none => .null

/-! ### Relational Access Bridge (`db_init`, `db_execute`, `db_query`) -/

/-- Result set delivered by a successfully prepared and executed
statement: the column names of the statement and, for each row, the raw
column values in column order. -/
structure QueryOutcome where
  columnNames : List String
  rows : List (List RawColumn)

/-- Translation of `fn db_init`: on a successful `Connection::open` plus
pragma batch (the oracle's `ok`), install the new connection, replacing
any previous one; on failure propagate a `Database` error and leave the
state unchanged. -/
def db_init (st : AppState) (openRes : Except String DbConn) :
    Except SidecarError Unit × AppState :=
  match openRes with
  | .error e => (.error (.Database e), st)
  | .ok c => (.ok (), { st with db := some c })

/-- Translation of `fn db_execute`: require an installed connection
(else `InvalidState`), convert the JSON parameters through `json_to_sql`
in order, run the statement through the driver (the oracle `exec`,
abstracting `conn.execute`) and return the affected row count; driver
failures surface as `Database` errors.  The state is returned unchanged,
as in the source, which only reads the connection under its lock. -/
def db_execute (E : Ext) (st : AppState) (sql : String) (params : List Json)
    (exec : String → List SqlParam → Except String Nat) :
    Except SidecarError Nat × AppState :=
  match st.db with
  | none => (.error (.InvalidState "Database not initialized"), st)
  | some _ =>
    match exec sql (params.map (json_to_sql E)) with
    | .error e => (.error (.Database e), st)
    | .ok affected => (.ok affected, st)

/-- Row mapping built by `db_query` for one row: insert the decoded
value of each column into a fresh map, left to right in column order,
with insert overwriting any earlier entry of the same name. -/
def rowToMap (E : Ext) (names : List String) (vals : List RawColumn) :
    List (String × Json) :=
  (names.zip vals).foldl (fun m p => alInsert m p.1 (row_value_to_json E p.2)) []

/-- Translation of `fn db_query`: require an installed connection (else
`InvalidState`), convert the parameters, prepare and run the statement
through the driver (the oracle `qry`, abstracting `conn.prepare` and the
row iteration; a failure anywhere gives a `Database` error), and
materialize every row as a JSON object built by `rowToMap`. -/
def db_query (E : Ext) (st : AppState) (sql : String) (params : List Json)
    (qry : String → List SqlParam → Except String QueryOutcome) :
    Except SidecarError (List Json) × AppState :=
  match st.db with
  | none => (.error (.InvalidState "Database not initialized"), st)
  | some _ =>
    match qry sql (params.map (json_to_sql E)) with
    | .error e => (.error (.Database e), st)
    | .ok out =>
      (.ok (out.rows.map (fun r => Json.obj (rowToMap E out.columnNames r))), st)

/-! ### Encryption Envelope (`init_encryption`, `encrypt_data`, `decrypt_data`) -/

/-- Byte sequence of the fixed context string `b"sidecar-encryption-salt-v1"`
appended to the passphrase before hashing (all characters are ASCII, so
the UTF-8 bytes are the character codes). -/
def saltBytes : List Nat :=
  "sidecar-encryption-salt-v1".data.map Char.toNat

/-- Key derivation performed by `init_encryption`:
`Sha256(password_bytes ++ salt)`, a 32-byte key. -/
def deriveKey (E : Ext) (password : String) : List Nat :=
  E.sha256 (E.utf8encode password ++ saltBytes)

/-- Translation of `fn init_encryption`: derive the key from the
passphrase and install it in the state; no failure path. -/
def init_encryption (E : Ext) (st : AppState) (password : String) :
    Except SidecarError Unit × AppState :=
  (.ok (), { st with encryption_key := some (deriveKey E password) })

/-- Translation of `fn encrypt_data`: require an installed key (else
`Encryption` error), build the AES-256-GCM cipher (`new_from_slice`
fails unless the key is 32 bytes), encrypt the plaintext bytes under the
caller-supplied fresh 12-byte nonce, and return the base64 encoding of
nonce followed by ciphertext.  The random nonce generation is external,
so the nonce is a parameter. -/
def encrypt_data (E : Ext) (st : AppState) (plaintext : String)
    (nonce : List Nat) : Except SidecarError String × AppState :=
  match st.encryption_key with
  | none => (.error (.Encryption "Encryption not initialized"), st)
  | some key =>
    if key.length = 32 then
      match E.aeadEnc key nonce (E.utf8encode plaintext) with
      | none => (.error (.Encryption "aead error"), st)
      | some ct => (.ok (E.b64encode (nonce ++ ct)), st)
    else (.error (.Encryption "Invalid Length"), st)

/-- Translation of `fn decrypt_data`: require an installed key (else
`Encryption` error), build the cipher, base64-decode the input (failure
is an `Encryption` error), reject decoded inputs shorter than 12 bytes,
split off the 12-byte nonce, run authenticated decryption (failure is an
`Encryption` error) and re-validate the plaintext as UTF-8 text (failure
is an `Encryption` error). -/
def decrypt_data (E : Ext) (st : AppState) (ciphertext : String) :
    Except SidecarError String × AppState :=
  match st.encryption_key with
  | none => (.error (.Encryption "Encryption not initialized"), st)
  | some key =>
    if key.length = 32 then
      match E.b64decode ciphertext with
      | none => (.error (.Encryption "base64 decode error"), st)
      | some combined =>
        if combined.length < 12 then
          (.error (.Encryption "Invalid ciphertext"), st)
        else
          match E.aeadDec key (combined.take 12) (combined.drop 12) with
          | none => (.error (.Encryption "aead decrypt error"), st)
          | some ptBytes =>
            match E.utf8decode ptBytes with
            | none => (.error (.Encryption "utf8 error"), st)
            | some pt => (.ok pt, st)
    else (.error (.Encryption "Invalid Length"), st)

/-! ### Secret Vault Facade (`store_credentials`, `get_credentials`,
`delete_credentials`)

The OS keyring is external.  Each command first builds a
`keyring::Entry` (whose failure is a `Keyring` error, modelled by the
`entryRes` argument) and then performs one vault operation whose OS-side
outcome is an argument; a healthy OS vault is modelled as an
association list from provider to secret. -/

/-- Service identifier constant `KEYRING_SERVICE`. -/
def KEYRING_SERVICE : String := "sidecar-app"

/-- Outcome of `entry.get_password()`: the stored secret, the
`NoEntry` error, or any other keyring error. -/
inductive VaultGetResp where
  | found (secret : String)
  | noEntry
  | fail (msg : String)
  deriving DecidableEq, Repr

/-- Outcome of `entry.set_password(..)` or `entry.delete_credential()`:
success, the `NoEntry` error, or any other keyring error. -/
inductive VaultOpResp where
  | ok
  | noEntry
  | fail (msg : String)
  deriving DecidableEq, Repr

/-- Translation of `fn store_credentials`: entry construction or
`set_password` failures surface as `Keyring` errors. -/
def store_credentials (entryRes : Except String Unit) (resp : VaultOpResp) :
    Except SidecarError Unit :=
  match entryRes with
  | .error e => .error (.Keyring e)
  | .ok _ =>
    match resp with
    | .ok => .ok ()
    | .noEntry => .error (.Keyring "no entry")
    | .fail e => .error (.Keyring e)

/-- Translation of `fn get_credentials`: the secret when present, `none`
on the `NoEntry` outcome, and a `Keyring` error on entry-construction
failure or any other vault failure. -/
def get_credentials (entryRes : Except String Unit) (resp : VaultGetResp) :
    Except SidecarError (Option String) :=
  match entryRes with
  | .error e => .error (.Keyring e)
  | .ok _ =>
    match resp with
    | .found password => .ok (some password)
    | .noEntry => .ok none
    | .fail e => .error (.Keyring e)

/-- Translation of `fn delete_credentials`: success both on the `Ok`
and on the `NoEntry` outcome (idempotent delete), and a `Keyring` error
on entry-construction failure or any other vault failure. -/
def delete_credentials (entryRes : Except String Unit) (resp : VaultOpResp) :
    Except SidecarError Unit :=
  match entryRes with
  | .error e => .error (.Keyring e)
  | .ok _ =>
    match resp with
    | .ok => .ok ()
    | .noEntry => .ok ()
    | .fail e => .error (.Keyring e)

/-- Healthy OS vault behaviour of `delete_credential` for one provider:
a present entry is removed with outcome `Ok`, an absent one answers
`NoEntry`. -/
def vaultDelete (v : List (String × String)) (p : String) :
    VaultOpResp × List (String × String) :=
  match alGet v p with
  | some _ => (.ok, alErase v p)
  | none => (.noEntry, v)

/-- Healthy OS vault behaviour of `get_password` for one provider. -/
def vaultGet (v : List (String × String)) (p : String) : VaultGetResp :=
  match alGet v p with
  | some s => .found s
  | none => .noEntry

/-! ### CSRF State Guard (`store_oauth_state`, `validate_oauth_state`) -/

/-- Translation of `fn store_oauth_state`: unconditional insert,
overwriting any previous token for the provider. -/
def store_oauth_state (st : AppState) (provider oauth_state : String) :
    Except SidecarError Unit × AppState :=
  (.ok (), { st with oauth_states := alInsert st.oauth_states provider oauth_state })

/-- Translation of `fn validate_oauth_state`: when an entry for the
provider exists and its stored token equals the candidate exactly,
remove the entry and answer `true`; in every other case answer `false`
and leave the map untouched. -/
def validate_oauth_state (st : AppState) (provider oauth_state : String) :
    Except SidecarError Bool × AppState :=
  match alGet st.oauth_states provider with
  | some stored =>
    if stored = oauth_state then
      (.ok true, { st with oauth_states := alErase st.oauth_states provider })
    else (.ok false, st)
  | none => (.ok false, st)

/-! ### Association-list lemmas -/

theorem alGet_alInsert {α : Type} (m : List (String × α)) (k n : String) (v : α) :
    alGet (alInsert m k v) n = if k = n then some v else alGet m n := by
  induction m with
  | nil => simp [alInsert, alGet]
  | cons p rest ih =>
    obtain ⟨k', v'⟩ := p
    by_cases hk : k' = k
    · subst hk
      by_cases hn : k' = n <;> simp [alInsert, alGet, hn]
    · by_cases hn : k' = n
      · subst hn
        have : ¬ k = k' := fun h => hk h.symm
        simp [alInsert, alGet, hk, this, ih]
      · simp [alInsert, alGet, hk, hn, ih]

theorem alGet_alErase {α : Type} (m : List (String × α)) (k n : String) :
    alGet (alErase m k) n = if k = n then none else alGet m n := by
  induction m with
  | nil => simp [alErase, alGet]
  | cons p rest ih =>
    obtain ⟨k', v'⟩ := p
    by_cases hk : k' = k
    · subst hk
      by_cases hn : k' = n
      · subst hn
        simp [alErase, ih]
      · simp [alErase, alGet, hn, ih]
    · by_cases hn : k' = n
      · subst hn
        have : ¬ k = k' := fun h => hk h.symm
        simp [alErase, alGet, hk, this, ih]
      · simp [alErase, alGet, hk, hn, ih]

/-- Rightmost value paired with a given name in a list of
(name, value) pairs; `none` when the name never occurs. -/
def lastVal {α : Type} : List (String × α) → String → Option α
  | [], _ => none
  | p :: rest, n =>
    match lastVal rest n with
    | some v => some v
    | none => if p.1 = n then some p.2 else none

theorem alGet_foldl_alInsert {α β : Type} (f : α → β)
    (ps : List (String × α)) (m : List (String × β)) (n : String) :
    alGet (ps.foldl (fun m p => alInsert m p.1 (f p.2)) m) n =
      match lastVal ps n with
      | some v => some (f v)
      | none => alGet m n := by
  induction ps generalizing m with
  | nil => simp [lastVal]
  | cons p rest ih =>
    obtain ⟨k, v⟩ := p
    rw [List.foldl_cons, ih]
    cases h : lastVal rest n with
    | some w => simp [lastVal, h]
    | none =>
      by_cases hk : k = n <;> simp [lastVal, h, alGet_alInsert, hk]

/-! ### Concrete instantiation of the external interface

The theorems below quantify over every `Ext`.  To evaluate them on
concrete inputs, the file provides one small executable instance: a
length-preserving dummy hash, an authenticated cipher that appends a
16-byte tag, and injective byte-level encoders with verified decoders.
These satisfy exactly the interface properties and nothing more. -/

/-- Test hash: 32 copies of the byte sum modulo 256. -/
def toySha (bs : List Nat) : List Nat :=
  List.replicate 32 (bs.sum % 256)

/-- Test cipher encryption: plaintext followed by a 16-byte zero tag. -/
def toyAeadEnc (_key _nonce pt : List Nat) : Option (List Nat) :=
  some (pt ++ List.replicate 16 0)

/-- Test cipher decryption: strip the 16-byte tag. -/
def toyAeadDec (_key _nonce ct : List Nat) : Option (List Nat) :=
  if 16 ≤ ct.length then some (ct.take (ct.length - 16)) else none

theorem toyAead_enc_dec (k n pt ct : List Nat)
    (h : toyAeadEnc k n pt = some ct) : toyAeadDec k n ct = some pt := by
  simp [toyAeadEnc] at h
  subst h
  have hlen : (pt ++ List.replicate 16 (0 : Nat)).length = pt.length + 16 := by
    simp
  have htake : (pt ++ List.replicate 16 (0 : Nat)).take (pt.length + 16 - 16) = pt := by
    exact List.take_left' (by omega)
  simp [toyAeadDec, hlen, htake]

theorem toyAead_enc_len (k n pt ct : List Nat)
    (h : toyAeadEnc k n pt = some ct) : ct.length = pt.length + 16 := by
  simp [toyAeadEnc] at h
  subst h
  simp

/-- Test text-safe encoding of a byte list: each byte `b` becomes `b`
copies of `'a'` followed by one `'s'`. -/
def tb64chars : List Nat → List Char
  | [] => []
  | b :: rest => List.replicate b 'a' ++ 's' :: tb64chars rest

/-- Decoder for `tb64chars`, accumulating the current run of `'a'`. -/
def tb64dec : List Char → Nat → Option (List Nat)
  | [], cnt => if cnt = 0 then some [] else none
  | c :: cs, cnt =>
    if c = 'a' then tb64dec cs (cnt + 1)
    else if c = 's' then (tb64dec cs 0).map (fun l => cnt :: l)
    else none

/-- Test base64 encode. -/
def toyB64encode (bs : List Nat) : String :=
  String.mk (tb64chars bs)

/-- Test base64 decode. -/
def toyB64decode (s : String) : Option (List Nat) :=
  tb64dec s.data 0

theorem tb64dec_replicate (n : Nat) (rest : List Char) (cnt : Nat) :
    tb64dec (List.replicate n 'a' ++ 's' :: rest) cnt =
      (tb64dec rest 0).map (fun l => (cnt + n) :: l) := by
  induction n generalizing cnt with
  | zero => simp [tb64dec]
  | succ m ih =>
    have : cnt + 1 + m = cnt + (m + 1) := by omega
    simp [List.replicate_succ, tb64dec, ih, this]

theorem toyB64_roundtrip (bs : List Nat) :
    toyB64decode (toyB64encode bs) = some bs := by
  show tb64dec (tb64chars bs) 0 = some bs
  induction bs with
  | nil => simp [tb64chars, tb64dec]
  | cons b rest ih => simp [tb64chars, tb64dec_replicate, ih]

/-- Test text encoding of a string: the list of its character codes. -/
def toyUtf8encode (s : String) : List Nat :=
  s.data.map Char.toNat

/-- Decoder for `toyUtf8encode`: rebuild each character, refusing codes
that are not valid scalar values. -/
def tUtf8Dec : List Nat → Option (List Char)
  | [] => some []
  | n :: ns =>
    if (Char.ofNat n).toNat = n then
      (tUtf8Dec ns).map (fun cs => Char.ofNat n :: cs)
    else none

/-- Test text decoding. -/
def toyUtf8decode (bs : List Nat) : Option String :=
  (tUtf8Dec bs).map String.mk

theorem tUtf8Dec_map_toNat (cs : List Char) :
    tUtf8Dec (cs.map Char.toNat) = some cs := by
  induction cs with
  | nil => simp [tUtf8Dec]
  | cons c rest ih => simp [tUtf8Dec, Char.ofNat_toNat, ih]

theorem toyUtf8_roundtrip (s : String) :
    toyUtf8decode (toyUtf8encode s) = some s := by
  show (tUtf8Dec (s.data.map Char.toNat)).map String.mk = some s
  rw [tUtf8Dec_map_toNat]
  cases s
  rfl

/-- Concrete external interface used to evaluate the theorems. -/
def toyExt : Ext where
  sha256 := toySha
  aeadEnc := toyAeadEnc
  aeadDec := toyAeadDec
  b64encode := toyB64encode
  b64decode := toyB64decode
  utf8encode := toyUtf8encode
  utf8decode := toyUtf8decode
  i64ToF64 := fun _ => ⟨0⟩
  u64ToF64 := fun _ => ⟨0⟩
  f64ToString := fun _ => "0.0"
  sha256_len := fun bs => by simp [toySha]
  aead_enc_dec := toyAead_enc_dec
  aead_enc_len := toyAead_enc_len
  b64_roundtrip := toyB64_roundtrip
  utf8_roundtrip := toyUtf8_roundtrip

/-! ### Witness inputs -/

/-- Nonce used by the concrete witnesses: twelve zero bytes. -/
def wNonce : List Nat := List.replicate 12 0

/-- Process state holding the key derived from passphrase `"p"`. -/
def wState : AppState :=
  { db := none, encryption_key := some (deriveKey toyExt "p"), oauth_states := [] }

/-- Envelope produced by encrypting `"hi"` under `wState`'s key and
`wNonce` with the concrete external interface. -/
def wEnv : String :=
  toyExt.b64encode (wNonce ++ (toyExt.utf8encode "hi" ++ List.replicate 16 0))

/-- Process state whose CSRF map holds token `"x"` for provider `"g"`. -/
def wStCsrf : AppState :=
  { db := none, encryption_key := none, oauth_states := [("g", "x")] }

/-- Process state with an installed database connection. -/
def wStConn : AppState :=
  { db := some ⟨0⟩, encryption_key := none, oauth_states := [] }

/-- Raw column whose only successful extraction is text `"7"` and
integer `7` (a value valid both as text and as integer). -/
def colTextInt : RawColumn :=
  { asText := some "7", asI64 := some 7, asF64 := none, asBool := none, asBlob := none }

/-- Raw column extractable only as the finite double with bit pattern 0. -/
def colFinFloat : RawColumn :=
  { asText := none, asI64 := none, asF64 := some ⟨0⟩, asBool := none, asBlob := none }

/-- Raw column extractable only as the double `+infinity`
(bit pattern `0x7FF0000000000000`). -/
def colInfFloat : RawColumn :=
  { asText := none, asI64 := none, asF64 := some ⟨0x7FF0000000000000⟩,
    asBool := none, asBlob := none }

/-- Raw column extractable only as text `"x"`. -/
def colTextX : RawColumn :=
  { asText := some "x", asI64 := none, asF64 := none, asBool := none, asBlob := none }

/-- Raw column extractable only as integer `5`. -/
def colInt5 : RawColumn :=
  { asText := none, asI64 := some 5, asF64 := none, asBool := none, asBlob := none }

/-! ### Claims -/

/-- C1: for every passphrase `pw` and plaintext `pt`, decrypting, with
the key derived from `pw`, the envelope produced by encrypting `pt`
under that same key (with any fresh 12-byte nonce) returns exactly
`pt`. -/
theorem c1_encrypt_decrypt_roundtrip (E : Ext) (st : AppState)
    (pw pt env : String) (nonce : List Nat)
    (hk : st.encryption_key = some (deriveKey E pw))
    (hn : nonce.length = 12)
    (henc : (encrypt_data E st pt nonce).1 = .ok env) :
    (decrypt_data E st env).1 = .ok pt := by
  have hlen32 : (deriveKey E pw).length = 32 := E.sha256_len _
  simp only [encrypt_data, hk, hlen32, if_true] at henc
  cases hct : E.aeadEnc (deriveKey E pw) nonce (E.utf8encode pt) with
  | none => rw [hct] at henc; simp at henc
  | some ct =>
    rw [hct] at henc
    simp only at henc
    cases henc
    have hdec := E.aead_enc_dec _ _ _ _ hct
    have h12 : ¬ (nonce ++ ct).length < 12 := by
      simp [List.length_append, hn]
    simp only [decrypt_data, hk, hlen32, if_true, E.b64_roundtrip, h12,
      if_false, List.take_left' hn, List.drop_left' hn, hdec,
      E.utf8_roundtrip]

/-- C1 witness: decrypting the envelope of `"hi"` under the key derived
from `"p"` gives back `"hi"`. -/
theorem c1_witness : (decrypt_data toyExt wState wEnv).1 = .ok "hi" :=
  c1_encrypt_decrypt_roundtrip toyExt wState "p" "hi" wEnv wNonce rfl
    (by decide) rfl

/-- C3: for every input string, `decrypt_data` fails with an
`Encryption` error (and hence returns no plaintext) when the input does
not base64-decode, and likewise when the decoded byte sequence is
strictly shorter than 12 bytes; the length check happens before the
nonce split, so no nonce extraction or decryption is reached. -/
theorem c3_decrypt_rejects_malformed (E : Ext) (st : AppState) (s : String) :
    (E.b64decode s = none →
      ∃ m, (decrypt_data E st s).1 = .error (.Encryption m))
    ∧ (∀ bs, E.b64decode s = some bs → bs.length < 12 →
      ∃ m, (decrypt_data E st s).1 = .error (.Encryption m)) := by
  constructor
  · intro hb
    cases hk : st.encryption_key with
    | none => exact ⟨"Encryption not initialized", by simp [decrypt_data, hk]⟩
    | some key =>
      by_cases h32 : key.length = 32
      · exact ⟨"base64 decode error", by simp [decrypt_data, hk, h32, hb]⟩
      · exact ⟨"Invalid Length", by simp [decrypt_data, hk, h32]⟩
  · intro bs hb hlen
    cases hk : st.encryption_key with
    | none => exact ⟨"Encryption not initialized", by simp [decrypt_data, hk]⟩
    | some key =>
      by_cases h32 : key.length = 32
      · exact ⟨"Invalid ciphertext", by simp [decrypt_data, hk, h32, hb, hlen]⟩
      · exact ⟨"Invalid Length", by simp [decrypt_data, hk, h32]⟩

/-- C3 witness: `"q"` is not in the image of the decoder, and the
envelope of the 3-byte sequence `[1, 2, 3]` decodes below 12 bytes;
both are rejected with an `Encryption` error. -/
theorem c3_witness :
    (∃ m, (decrypt_data toyExt wState "q").1 = .error (.Encryption m))
    ∧ (∃ m, (decrypt_data toyExt wState (toyExt.b64encode [1, 2, 3])).1
        = .error (.Encryption m)) :=
  ⟨(c3_decrypt_rejects_malformed toyExt wState "q").1 rfl,
   (c3_decrypt_rejects_malformed toyExt wState
      (toyExt.b64encode [1, 2, 3])).2 [1, 2, 3] rfl (by decide)⟩

/-- C9: for every plaintext (the empty string included), a successful
`encrypt_data` call yields an envelope whose base64 decoding exists and
is at least 28 bytes long: the 12-byte nonce plus the authenticated
ciphertext, which carries a 16-byte tag on top of the plaintext. -/
theorem c9_envelope_min_length (E : Ext) (st : AppState) (pt env : String)
    (nonce : List Nat) (hn : nonce.length = 12)
    (henc : (encrypt_data E st pt nonce).1 = .ok env) :
    ∃ bs, E.b64decode env = some bs ∧ 28 ≤ bs.length := by
  cases hk : st.encryption_key with
  | none => simp [encrypt_data, hk] at henc
  | some key =>
    by_cases h32 : key.length = 32
    · simp only [encrypt_data, hk, h32, if_true] at henc
      cases hct : E.aeadEnc key nonce (E.utf8encode pt) with
      | none => rw [hct] at henc; simp at henc
      | some ct =>
        rw [hct] at henc
        simp only at henc
        cases henc
        refine ⟨nonce ++ ct, E.b64_roundtrip _, ?_⟩
        have hl := E.aead_enc_len _ _ _ _ hct
        rw [List.length_append, hn, hl]
        omega
    · simp [encrypt_data, hk, h32] at henc

/-- C9 witness: the envelope of `"hi"` decodes to 30 bytes, at least
28. -/
theorem c9_witness :
    ∃ bs, toyExt.b64decode wEnv = some bs ∧ 28 ≤ bs.length :=
  c9_envelope_min_length toyExt wState "hi" wEnv wNonce (by decide) rfl

/-- C2: `validate_oauth_state` answers `true` and removes the
provider's entry exactly when an entry exists whose stored token equals
the candidate; in every other case it answers `false` and leaves the map
untouched.  Consequently, after `store_oauth_state p x`, validating `x`
succeeds, a second validation of `x` fails (single use), and validating
a wrong token fails without consuming the stored token. -/
theorem c2_csrf_consume_on_validate (st : AppState) (p cand x wrong : String) :
    (alGet st.oauth_states p = some cand →
      (validate_oauth_state st p cand).1 = .ok true
      ∧ alGet (validate_oauth_state st p cand).2.oauth_states p = none
      ∧ ∀ q, q ≠ p →
          alGet (validate_oauth_state st p cand).2.oauth_states q
            = alGet st.oauth_states q)
    ∧ (alGet st.oauth_states p ≠ some cand →
      (validate_oauth_state st p cand).1 = .ok false
      ∧ (validate_oauth_state st p cand).2 = st)
    ∧ (validate_oauth_state (store_oauth_state st p x).2 p x).1 = .ok true
    ∧ (validate_oauth_state
        (validate_oauth_state (store_oauth_state st p x).2 p x).2 p x).1
        = .ok false
    ∧ (wrong ≠ x →
      (validate_oauth_state (store_oauth_state st p x).2 p wrong).1 = .ok false
      ∧ (validate_oauth_state (store_oauth_state st p x).2 p wrong).2
          = (store_oauth_state st p x).2) := by
  refine ⟨?_, ?_, ?_, ?_, ?_⟩
  · intro h
    refine ⟨by simp [validate_oauth_state, h], ?_, ?_⟩
    · simp [validate_oauth_state, h, alGet_alErase]
    · intro q hq
      have : ¬ p = q := fun hpq => hq hpq.symm
      simp [validate_oauth_state, h, alGet_alErase, this]
  · intro h
    cases hg : alGet st.oauth_states p with
    | none => exact ⟨by simp [validate_oauth_state, hg], by simp [validate_oauth_state, hg]⟩
    | some stored =>
      have hne : stored ≠ cand := fun hc => h (hc ▸ hg)
      exact ⟨by simp [validate_oauth_state, hg, hne],
        by simp [validate_oauth_state, hg, hne]⟩
  · simp [validate_oauth_state, store_oauth_state, alGet_alInsert]
  · simp [validate_oauth_state, store_oauth_state, alGet_alInsert, alGet_alErase]
  · intro hw
    have hne : x ≠ wrong := fun hc => hw hc.symm
    exact ⟨by simp [validate_oauth_state, store_oauth_state, alGet_alInsert, hne],
      by simp [validate_oauth_state, store_oauth_state, alGet_alInsert, hne]⟩

/-- C2 witness: with token `"x"` stored for provider `"g"`, validating
`"x"` succeeds and consumes the entry, validating `"y"` fails leaving
the state unchanged, and after a fresh issue a wrong guess `"w"` fails. -/
theorem c2_witness :
    ((validate_oauth_state wStCsrf "g" "x").1 = .ok true
      ∧ alGet (validate_oauth_state wStCsrf "g" "x").2.oauth_states "g" = none)
    ∧ ((validate_oauth_state wStCsrf "g" "y").1 = .ok false
      ∧ (validate_oauth_state wStCsrf "g" "y").2 = wStCsrf)
    ∧ (validate_oauth_state (store_oauth_state wStCsrf "g" "x").2 "g" "w").1
        = .ok false :=
  ⟨⟨((c2_csrf_consume_on_validate wStCsrf "g" "x" "x" "w").1 (by decide)).1,
    ((c2_csrf_consume_on_validate wStCsrf "g" "x" "x" "w").1 (by decide)).2.1⟩,
   (c2_csrf_consume_on_validate wStCsrf "g" "y" "x" "w").2.1 (by decide),
   ((c2_csrf_consume_on_validate wStCsrf "g" "x" "x" "w").2.2.2.2 (by decide)).1⟩

/-- C4: with no installed connection, both `db_execute` and `db_query`
fail with the `InvalidState` error and leave the state unchanged (they
are total functions, so no panic); with an installed connection the
`InvalidState` branch is never taken; and `db_init` installs the freshly
opened connection. -/
theorem c4_requires_initialized_connection (E : Ext) (st : AppState)
    (sql : String) (ps : List Json)
    (exec : String → List SqlParam → Except String Nat)
    (qry : String → List SqlParam → Except String QueryOutcome) :
    (st.db = none →
      db_execute E st sql ps exec
        = (.error (.InvalidState "Database not initialized"), st)
      ∧ db_query E st sql ps qry
        = (.error (.InvalidState "Database not initialized"), st))
    ∧ (∀ c, st.db = some c →
      (∀ m, (db_execute E st sql ps exec).1 ≠ .error (.InvalidState m))
      ∧ (∀ m, (db_query E st sql ps qry).1 ≠ .error (.InvalidState m)))
    ∧ (∀ c, (db_init st (.ok c)).2.db = some c) := by
  refine ⟨?_, ?_, fun c => rfl⟩
  · intro h
    exact ⟨by simp [db_execute, h], by simp [db_query, h]⟩
  · intro c hc
    constructor
    · intro m
      cases he : exec sql (ps.map (json_to_sql E)) with
      | error e => simp [db_execute, hc, he]
      | ok n => simp [db_execute, hc, he]
    · intro m
      cases hq : qry sql (ps.map (json_to_sql E)) with
      | error e => simp [db_query, hc, hq]
      | ok out => simp [db_query, hc, hq]

/-- C4 witness: on the fresh state both operations answer the
`InvalidState` error, and with an installed connection `db_query` does
not. -/
theorem c4_witness :
    db_execute toyExt AppState.new "SELECT 1" [] (fun _ _ => .ok 0)
      = (.error (.InvalidState "Database not initialized"), AppState.new)
    ∧ (db_query toyExt wStConn "SELECT 1" [] (fun _ _ => .ok ⟨[], []⟩)).1
      ≠ .error (.InvalidState "Database not initialized") :=
  ⟨((c4_requires_initialized_connection toyExt AppState.new "SELECT 1" []
      (fun _ _ => .ok 0) (fun _ _ => .ok ⟨[], []⟩)).1 rfl).1,
   (((c4_requires_initialized_connection toyExt wStConn "SELECT 1" []
      (fun _ _ => .ok 0) (fun _ _ => .ok ⟨[], []⟩)).2.1 ⟨0⟩ rfl).2)
      "Database not initialized"⟩

/-- C5 counterexample: a raw column whose only successful extraction is
the double `+infinity` (such as a SQLite `REAL` holding `9e999`) is
reported as JSON null, not as the number the float extraction produced:
`serde_json`'s number conversion rejects non-finite doubles.  This
refutes the claim that the decoder always returns the first extraction
that succeeds and returns null only when all five fail. -/
theorem c5_counterexample :
    row_value_to_json toyExt colInfFloat = Json.null
    ∧ row_value_to_json toyExt colInfFloat
        ≠ Json.num (.float ⟨0x7FF0000000000000⟩) :=
  ⟨rfl, fun h => Json.noConfusion ((rfl : row_value_to_json toyExt colInfFloat = Json.null) ▸ h)⟩

/-- C5 (amended): the column decoder attempts extraction in the fixed
priority order text, 64-bit integer, 64-bit float, boolean, opaque
binary (base64-encoded text), returning the first extraction that
succeeds — except that a successful float extraction is reported as a
number only when the double is finite, a non-finite double being
reported as null — and returns null when all five extractions fail; a
value valid both as text and as integer is reported as text. -/
theorem c5_decode_priority_order (E : Ext) (c : RawColumn) :
    (∀ s, c.asText = some s → row_value_to_json E c = .str s)
    ∧ (c.asText = none → ∀ i, c.asI64 = some i →
        row_value_to_json E c = .num (jnumOfInt i))
    ∧ (c.asText = none → c.asI64 = none → ∀ f, c.asF64 = some f →
        (f.isFinite = true → row_value_to_json E c = .num (.float f))
        ∧ (f.isFinite = false → row_value_to_json E c = .null))
    ∧ (c.asText = none → c.asI64 = none → c.asF64 = none →
        ∀ b, c.asBool = some b → row_value_to_json E c = .bool b)
    ∧ (c.asText = none → c.asI64 = none → c.asF64 = none → c.asBool = none →
        ∀ bs, c.asBlob = some bs → row_value_to_json E c = .str (E.b64encode bs))
    ∧ (c.asText = none → c.asI64 = none → c.asF64 = none → c.asBool = none →
        c.asBlob = none → row_value_to_json E c = .null)
    ∧ (∀ s i, c.asText = some s → c.asI64 = some i →
        row_value_to_json E c = .str s) := by
  refine ⟨?_, ?_, ?_, ?_, ?_, ?_, ?_⟩
  · intro s h
    simp [row_value_to_json, h]
  · intro h1 i h2
    simp [row_value_to_json, h1, h2]
  · intro h1 h2 f h3
    exact ⟨fun hf => by simp [row_value_to_json, h1, h2, h3, jsonOfF64, hf],
      fun hf => by simp [row_value_to_json, h1, h2, h3, jsonOfF64, hf]⟩
  · intro h1 h2 h3 b h4
    simp [row_value_to_json, h1, h2, h3, h4]
  · intro h1 h2 h3 h4 bs h5
    simp [row_value_to_json, h1, h2, h3, h4, h5]
  · intro h1 h2 h3 h4 h5
    simp [row_value_to_json, h1, h2, h3, h4, h5]
  · intro s i h1 _
    simp [row_value_to_json, h1]

/-- C5 witness: a column valid both as text `"7"` and integer `7`
decodes as text, and a column holding the finite double with bit
pattern 0 decodes as that number. -/
theorem c5_witness :
    row_value_to_json toyExt colTextInt = .str "7"
    ∧ row_value_to_json toyExt colFinFloat = .num (.float ⟨0⟩) :=
  ⟨(c5_decode_priority_order toyExt colTextInt).2.2.2.2.2.2 "7" 7 rfl rfl,
   (((c5_decode_priority_order toyExt colFinFloat).2.2.1 rfl rfl ⟨0⟩ rfl).1)
     (by decide)⟩

/-- C6: the row mapping built by `db_query` inserts columns left to
right with overwrite, so for a duplicated column name the surviving
value is that of the rightmost column with that name (and a name that
never occurs is absent); `db_query`'s rows are exactly these mappings. -/
theorem c6_duplicate_columns_last_wins (E : Ext) (names : List String)
    (vals : List RawColumn) (n : String) (v : RawColumn) (st : AppState)
    (sql : String) (ps : List Json)
    (qry : String → List SqlParam → Except String QueryOutcome)
    (out : QueryOutcome) (c : DbConn) :
    (lastVal (names.zip vals) n = some v →
      alGet (rowToMap E names vals) n = some (row_value_to_json E v))
    ∧ (lastVal (names.zip vals) n = none →
      alGet (rowToMap E names vals) n = none)
    ∧ (st.db = some c → qry sql (ps.map (json_to_sql E)) = .ok out →
      (db_query E st sql ps qry).1
        = .ok (out.rows.map (fun r => Json.obj (rowToMap E out.columnNames r)))) := by
  refine ⟨?_, ?_, ?_⟩
  · intro h
    rw [rowToMap, alGet_foldl_alInsert, h]
  · intro h
    rw [rowToMap, alGet_foldl_alInsert, h]
    rfl
  · intro h1 h2
    simp [db_query, h1, h2]

/-- C6 witness: with duplicated column name `"a"` over a text column
and then an integer column, the mapping keeps the rightmost (integer)
value. -/
theorem c6_witness :
    alGet (rowToMap toyExt ["a", "a"] [colTextX, colInt5]) "a"
      = some (row_value_to_json toyExt colInt5) :=
  (c6_duplicate_columns_last_wins toyExt ["a", "a"] [colTextX, colInt5] "a"
      colInt5 AppState.new "SELECT 1" [] (fun _ _ => .ok ⟨[], []⟩) ⟨[], []⟩
      ⟨0⟩).1 (by decide)

/-- C7: with a healthy OS vault, deleting a provider's entry succeeds
whether or not an entry is present, retrieving after a delete returns
`none` rather than an error, and only vault failures other than
entry absence surface as `Keyring` errors. -/
theorem c7_vault_idempotent_delete (v : List (String × String)) (p e : String) :
    delete_credentials (.ok ()) (vaultDelete v p).1 = .ok ()
    ∧ get_credentials (.ok ()) (vaultGet (vaultDelete v p).2 p) = .ok none
    ∧ delete_credentials (.ok ()) (.fail e) = .error (.Keyring e)
    ∧ get_credentials (.ok ()) (.fail e) = .error (.Keyring e) := by
  refine ⟨?_, ?_, rfl, rfl⟩
  · cases h : alGet v p with
    | some s => simp [vaultDelete, h, delete_credentials]
    | none => simp [vaultDelete, h, delete_credentials]
  · cases h : alGet v p with
    | some s => simp [vaultDelete, h, vaultGet, alGet_alErase, get_credentials]
    | none => simp [vaultDelete, h, vaultGet, get_credentials]

/-- C8: a failing `db_execute` or `db_query` leaves the whole shared
state — in particular the installed connection — unchanged, and a
failing `decrypt_data` leaves the whole shared state — in particular
the derived key — unchanged, so subsequent calls run against the same
resources. -/
theorem c8_errors_preserve_state (E : Ext) (st : AppState) (sql s : String)
    (ps : List Json)
    (exec : String → List SqlParam → Except String Nat)
    (qry : String → List SqlParam → Except String QueryOutcome)
    (e1 e2 e3 : SidecarError) :
    ((db_execute E st sql ps exec).1 = .error e1 →
      (db_execute E st sql ps exec).2 = st)
    ∧ ((db_query E st sql ps qry).1 = .error e2 →
      (db_query E st sql ps qry).2 = st)
    ∧ ((decrypt_data E st s).1 = .error e3 →
      (decrypt_data E st s).2 = st) := by
  have hex : (db_execute E st sql ps exec).2 = st := by
    unfold db_execute
    repeat' split
    all_goals rfl
  have hq : (db_query E st sql ps qry).2 = st := by
    unfold db_query
    repeat' split
    all_goals rfl
  have hd : (decrypt_data E st s).2 = st := by
    unfold decrypt_data
    repeat' split
    all_goals rfl
  exact ⟨fun _ => hex, fun _ => hq, fun _ => hd⟩

/-- C8 witness: on the fresh state, the failing query and the failing
decrypt each return the state unchanged. -/
theorem c8_witness :
    (db_query toyExt AppState.new "SELECT 1" [] (fun _ _ => .ok ⟨[], []⟩)).2
      = AppState.new
    ∧ (decrypt_data toyExt AppState.new "q").2 = AppState.new :=
  ⟨(c8_errors_preserve_state toyExt AppState.new "SELECT 1" "q" []
      (fun _ _ => .ok 0) (fun _ _ => .ok ⟨[], []⟩)
      (.InvalidState "Database not initialized")
      (.InvalidState "Database not initialized")
      (.Encryption "Encryption not initialized")).2.1 rfl,
   (c8_errors_preserve_state toyExt AppState.new "SELECT 1" "q" []
      (fun _ _ => .ok 0) (fun _ _ => .ok ⟨[], []⟩)
      (.InvalidState "Database not initialized")
      (.InvalidState "Database not initialized")
      (.Encryption "Encryption not initialized")).2.2 rfl⟩

/-- C10: the parameter encoder is total over all JSON values: null,
booleans and strings map to their native parameters, every number maps
to an integer, real or text parameter, and the values outside the
six-member union — arrays and objects — are bound as their compact
JSON-serialized text. -/
theorem c10_encoder_total (E : Ext) :
    json_to_sql E .null = .null
    ∧ (∀ b, json_to_sql E (.bool b) = .bool b)
    ∧ (∀ s, json_to_sql E (.str s) = .text s)
    ∧ (∀ n : JNumber,
        (∃ i, json_to_sql E (.num n) = .int i)
        ∨ (∃ f, json_to_sql E (.num n) = .real f)
        ∨ (∃ t, json_to_sql E (.num n) = .text t))
    ∧ (∀ xs, json_to_sql E (.arr xs) = .text (jsonToString E (.arr xs)))
    ∧ (∀ fs, json_to_sql E (.obj fs) = .text (jsonToString E (.obj fs))) := by
  refine ⟨rfl, fun b => rfl, fun s => rfl, ?_, fun xs => rfl, fun fs => rfl⟩
  intro n
  cases n with
  | posInt m =>
    by_cases h : m ≤ i64Max
    · exact .inl ⟨Int.ofNat m, by simp [json_to_sql, JNumber.asI64, h]⟩
    · exact .inr (.inl ⟨E.u64ToF64 m,
        by simp [json_to_sql, JNumber.asI64, JNumber.asF64, h]⟩)
  | negInt i =>
    exact .inl ⟨i, by simp [json_to_sql, JNumber.asI64]⟩
  | float f =>
    exact .inr (.inl ⟨f, by simp [json_to_sql, JNumber.asI64, JNumber.asF64]⟩)

end Sidecar
